import Mathlib

/-!
Shallow embedding of `src/MyApp.py` (class `DataBase` and the `users` schema
wired up by the `__main__` dispatcher).  Strings are Lean `String`s; SQLite
rowids and Python ints are `Nat`/`Int`; fallible operations return
`Except`/pairs with an `Option` error.  Every definition is translated from
the source; the single spec-side definition (`read_query_bound_spec`) is
clearly marked.
-/

namespace MyApp

/-- Character list comparison in code-point order: this is the order SQLite
BINARY collation induces on UTF-8 encoded TEXT values (UTF-8 byte order
coincides with code-point order), with a proper prefix sorting first. -/
def chars_le : List Char → List Char → Bool
  | [], _ => true
  | _ :: _, [] => false
  | a :: as, b :: bs => if a < b then true else if b < a then false else chars_le as bs

/-- Suffix test on character lists; used to model Python `str.endswith`. -/
def ends_chars (p l : List Char) : Bool :=
  l.drop (l.length - p.length) == p

/-- Models Python `str.endswith(suffix)`. -/
def ends_with (s suffix : String) : Bool :=
  ends_chars suffix.data s.data

/-- Models Python `str.join` (here only used with separators "," and ", "). -/
def join_sep (sep : String) : List String → String
  | [] => ""
  | [x] => x
  | x :: xs => x ++ sep ++ join_sep sep xs

/-- ASCII decimal digit test (the digits of a `%Y-%m-%d` date). -/
def isAsciiDigit (c : Char) : Bool := '0' ≤ c && c ≤ '9'

/-- Accumulator for the numeric value of a digit string. -/
def digitsValAux (acc : Nat) : List Char → Nat
  | [] => acc
  | c :: cs => digitsValAux (acc * 10 + (c.toNat - 48)) cs

/-- Numeric value of a nonempty all-digit character list, `none` otherwise. -/
def digitsVal (l : List Char) : Option Nat :=
  if !l.isEmpty && l.all isAsciiDigit then some (digitsValAux 0 l) else none

/-- Splitting a character list at a separator character, modelling the field
structure the `%Y-%m-%d` format imposes. -/
def splitOnChar (sep : Char) : List Char → List (List Char)
  | [] => [[]]
  | c :: cs =>
    match splitOnChar sep cs with
    | [] => if c = sep then [[], [c]] else [[c]]
    | g :: gs => if c = sep then [] :: g :: gs else (c :: g) :: gs

/-- Calendar date as Python `datetime.date` holds it (year, month, day). -/
structure PyDate where
  year : Nat
  month : Nat
  day : Nat
deriving DecidableEq, Repr

/-- Gregorian leap year rule used by Python `datetime`. -/
def isLeapYear (y : Nat) : Bool := y % 4 = 0 && (y % 100 ≠ 0 || y % 400 = 0)

/-- Number of days of a month, as `datetime` validates them. -/
def daysInMonth (y m : Nat) : Nat :=
  if m = 2 then (if isLeapYear y then 29 else 28)
  else if m = 4 || m = 6 || m = 9 || m = 11 then 30 else 31

/-- Models `datetime.strptime(s, "%Y-%m-%d")` from `DataBase.__how_old_a_you`:
exactly three dash-separated fields, a four-digit year (`%Y`), a one- or
two-digit month in 1..12 (`%m`), a one- or two-digit day in 1..31 (`%d`),
and the day must exist in the given month and year, else the call raises
(modelled as `none`).  Year 0 is rejected (`datetime.MINYEAR` is 1). -/
def strptimeYMD (s : String) : Option PyDate :=
  match splitOnChar '-' s.data with
  | [ys, ms, ds] =>
    match digitsVal ys, digitsVal ms, digitsVal ds with
    | some y, some m, some d =>
      if ys.length = 4 && 1 ≤ y &&
         (1 ≤ ms.length && ms.length ≤ 2) && 1 ≤ m && m ≤ 12 &&
         (1 ≤ ds.length && ds.length ≤ 2) && 1 ≤ d && d ≤ daysInMonth y m
      then some ⟨y, m, d⟩ else none
    | _, _, _ => none
  | _ => none

/-- Line 133 of the source:
`today.year - birth_date.year - ((today.month, today.day) < (birth_date.month, birth_date.day))`.
Python tuple comparison is lexicographic and the boolean is 0 or 1. -/
def ageOn (birth today : PyDate) : Int :=
  (today.year : Int) - (birth.year : Int) -
    (if today.month < birth.month ∨ (today.month = birth.month ∧ today.day < birth.day)
     then 1 else 0)

/-- One fetched SQL value: the `users` table holds INTEGER rowids and TEXT. -/
inductive Cell where
  | int (i : Int)
  | str (s : String)
deriving DecidableEq, Repr

/-- One stored row of the `users` table created by case "1":
`(user_id INTEGER PRIMARY KEY AUTOINCREMENT, name TEXT, date DATE, gender TEXT)`. -/
structure Row where
  user_id : Nat
  name : String
  date : String
  gender : String
deriving DecidableEq, Repr

/-- Contents of the `users` table plus the next AUTOINCREMENT rowid
(SQLite assigns 1 to the first inserted row). -/
structure Table where
  nextId : Nat
  rows : List Row
deriving DecidableEq, Repr

/-- State of a freshly created table. -/
def emptyTable : Table := ⟨1, []⟩

/-- Enum `DBType` from the source (lines 13-22). -/
inductive DBType where
  | NULL | INTEGER | REAL | TEXT | DATE | BLOB
deriving DecidableEq, Repr

/-- The `.value` strings of `DBType`. -/
def DBType.value : DBType → String
  | .NULL => "NULL"
  | .INTEGER => "INTEGER PRIMARY KEY AUTOINCREMENT"
  | .REAL => "REAL"
  | .TEXT => "TEXT"
  | .DATE => "DATE"
  | .BLOB => "BLOB"

/-- Models `DataBase.__prepare_labels`. -/
def prepare_labels (labels : List (String × DBType)) : String :=
  join_sep "," (labels.map (fun l => l.1 ++ " " ++ DBType.value l.2))

/-- The `users` schema passed by `__main__` case "1" (lines 202-207). -/
def users_columns : List (String × DBType) :=
  [("user_id", .INTEGER), ("name", .TEXT), ("date", .DATE), ("gender", .TEXT)]

/-- Errors of the schema (DDL) operations. -/
inductive SError where
  | schemaError
deriving DecidableEq, Repr

/-- Errors of the insert operations. -/
inductive WError where
  | writeError
deriving DecidableEq, Repr

/-- Errors of the read operations: `queryError` for a bad SQL reference,
`valueError` for the Python exception raised while computing the age. -/
inductive RError where
  | queryError
  | valueError
deriving DecidableEq, Repr

/-- Errors of `DataBase.__init__`, distinguished in the source by their
distinct exception messages (lines 69 and 80). -/
inductive InitError where
  | invalidPath
  | invalidFilename
deriving DecidableEq, Repr

/-- Whole database file: tables by name, and indexes as (index name, table name).
Dropping a table also drops the indexes created on it, as SQLite does. -/
structure DBState where
  tables : List (String × Table)
  indexes : List (String × String)
deriving DecidableEq, Repr

/-- Membership of a table name in the schema. -/
def table_exists (s : DBState) (n : String) : Bool := s.tables.any (fun p => p.1 == n)

/-- Membership of an index name in the schema. -/
def index_exists (s : DBState) (n : String) : Bool := s.indexes.any (fun p => p.1 == n)

/-- Models `DataBase.create_table`: `CREATE TABLE IF NOT EXISTS` DDL, a no-op
when a table of that name already exists (the column list is then ignored). -/
def create_table (s : DBState) (tablename : String) (_columns : List (String × DBType)) : DBState :=
  if table_exists s tablename then s
  else { s with tables := s.tables ++ [(tablename, emptyTable)] }

/-- Models `DataBase.delete_table`: `DROP TABLE IF EXISTS`; SQLite also drops
the indexes of the dropped table. -/
def delete_table (s : DBState) (tablename : String) : DBState :=
  { tables := s.tables.filter (fun p => !(p.1 == tablename)),
    indexes := s.indexes.filter (fun p => !(p.2 == tablename)) }

/-- Models `DataBase.create_index`: `CREATE INDEX IF NOT EXISTS ... ON tablename
(name, gender) WHERE name LIKE 'F%' AND gender = 'M'`; a no-op when the index
name exists, an error when the target table is missing. -/
def create_index (s : DBState) (tablename indexname : String) : Except SError DBState :=
  if index_exists s indexname then .ok s
  else if table_exists s tablename then
    .ok { s with indexes := s.indexes ++ [(indexname, tablename)] }
  else .error .schemaError

/-- Models `DataBase.delete_index`: `DROP INDEX IF EXISTS`. -/
def delete_index (s : DBState) (indexname : String) : DBState :=
  { s with indexes := s.indexes.filter (fun p => !(p.1 == indexname)) }

/-- Models `DataBase.__is_path_valid`; the existence check `os.path.exists`
is the environment, passed as a predicate. -/
def is_path_valid (path_exists : String → Bool) (path : String) : Except InitError String :=
  if path_exists path then .ok path else .error .invalidPath

/-- Models `DataBase.__is_filename_valid`: accepts exactly the file names
ending in ".db" or ".sqlite3". -/
def is_filename_valid (filename : String) : Except InitError String :=
  if ends_with filename ".db" || ends_with filename ".sqlite3" then .ok filename
  else .error .invalidFilename

/-- Models `DataBase.__init__` (lines 26-35): the path is validated first,
then the file name; on success the connection is established on the pair. -/
def data_base_init (path_exists : String → Bool) (path filename : String) :
    Except InitError (String × String) :=
  match is_path_valid path_exists path with
  | .error e => .error e
  | .ok p =>
    match is_filename_valid filename with
    | .error e => .error e
    | .ok f => .ok (p, f)

/-- Binding of the three `?` parameters of
`INSERT OR IGNORE INTO {t} VALUES (NULL,?,?,?)`: a row binds exactly when it
has exactly three values, else sqlite3 raises (`WriteError`). -/
def bind_row : List String → Option (String × String × String)
  | [n, b, g] => some (n, b, g)
  | _ => none

/-- Appending one bound row: the NULL placeholder makes SQLite assign the next
AUTOINCREMENT rowid.  The `users` schema has no uniqueness constraint apart
from the auto-assigned `user_id`, so the `OR IGNORE` clause of the source
INSERT never finds a conflict to ignore and the row is always stored. -/
def insert_row (t : Table) (name date gender : String) : Table :=
  ⟨t.nextId + 1, t.rows ++ [⟨t.nextId, name, date, gender⟩]⟩

/-- Models `DataBase.insert` (lines 82-89): execute then commit; when the
execute raises, the commit is never reached and the committed state is the
old one.  Result: (committed state, error if any). -/
def insert (t : Table) (row : List String) : Table × Option WError :=
  match bind_row row with
  | some (n, b, g) => (insert_row t n b g, none)
  | none => (t, some .writeError)

/-- The cursor loop of `executemany`: rows are bound and executed in order,
raising at the first row that fails to bind. -/
def run_insert_many (t : Table) : List (List String) → Except WError Table
  | [] => .ok t
  | r :: rs =>
    match bind_row r with
    | some (n, b, g) => run_insert_many (insert_row t n b g) rs
    | none => .error .writeError

/-- Models `DataBase.insert_many` (lines 91-98): `executemany` then a single
commit; when `executemany` raises, the commit is never reached, so the
committed state is the old one.  Result: (committed state, error if any). -/
def insert_many (t : Table) (rows : List (List String)) : Table × Option WError :=
  match run_insert_many t rows with
  | .ok t2 => (t2, none)
  | .error e => (t, some e)

/-- The column names of the `users` table; selecting any other column makes
SQLite raise an OperationalError (`QueryError`). -/
def known_column (c : String) : Bool :=
  c == "user_id" || c == "name" || c == "date" || c == "gender"

/-- Value of one column of a stored row, as `fetchall` returns it
(INTEGER rowid, TEXT otherwise). -/
def col_value (r : Row) (c : String) : Option Cell :=
  if c == "user_id" then some (.int r.user_id)
  else if c == "name" then some (.str r.name)
  else if c == "date" then some (.str r.date)
  else if c == "gender" then some (.str r.gender)
  else none

/-- ASCII case folding of SQLite default LIKE: the 26 upper-case ASCII
letters fold onto their lower-case forms, every other character is itself. -/
def foldAscii (c : Char) : Char :=
  if 'A' ≤ c && c ≤ 'Z' then Char.ofNat (c.toNat + 32) else c

/-- SQLite LIKE matching on character lists, with explicit fuel so that the
definition is structurally recursive: percent matches any sequence,
underscore any single character, and plain characters compare after ASCII
case folding.  Every recursive call shrinks pattern length + string length,
so fuel `p.length + s.length + 1` (as `like` passes) is never exhausted. -/
def likeFuel : Nat → List Char → List Char → Bool
  | 0, _, _ => false
  | _ + 1, [], [] => true
  | fuel + 1, '%' :: ps, s =>
    likeFuel fuel ps s ||
      (match s with
       | [] => false
       | _ :: ss => likeFuel fuel ('%' :: ps) ss)
  | fuel + 1, '_' :: ps, _ :: ss => likeFuel fuel ps ss
  | fuel + 1, p :: ps, c :: ss => (foldAscii p == foldAscii c) && likeFuel fuel ps ss
  | _ + 1, _ :: _, [] => false
  | _ + 1, [], _ :: _ => false

/-- SQLite `value LIKE pattern` (default, no ESCAPE, ASCII case folding). -/
def like (pattern s : String) : Bool :=
  likeFuel (pattern.data.length + s.data.length + 1) pattern.data s.data

/-- Models `DataBase.find_name_f` (lines 136-143):
`SELECT * FROM {t} WHERE name LIKE 'F%' AND gender = 'M'`; all columns of the
matching rows, no age appended. -/
def find_name_f (t : Table) : List Row :=
  t.rows.filter (fun r => like "F%" r.name && r.gender == "M")

/-- Models `DataBase.__how_old_a_you` (lines 126-134): parses `row[1]` with
`strptime` and applies the age formula; a missing index, a non-string value
or an unparsable string raises (modelled as `none`). -/
def how_old_a_you (today : PyDate) (row : List Cell) : Option Int :=
  match row[1]? with
  | some (Cell.str s) => (strptimeYMD s).map (fun b => ageOn b today)
  | _ => none

/-- The comprehension `[row + (how_old_a_you(row),) for row in rows]` of
`read_all`/`read`: appends the computed age to each fetched row, raising at
the first row on which the age computation raises. -/
def with_ages (today : PyDate) : List (List Cell) → Except RError (List (List Cell))
  | [] => .ok []
  | p :: ps =>
    match how_old_a_you today p with
    | some a => (with_ages today ps).map (fun rest => (p ++ [Cell.int a]) :: rest)
    | none => .error .valueError

/-- SQLite comparison of two values of the `users` table under `ORDER BY`:
INTEGER sorts before TEXT, INTEGERs numerically, TEXTs by BINARY collation. -/
def cell_le : Cell → Cell → Bool
  | .int x, .int y => decide (x ≤ y)
  | .int _, .str _ => true
  | .str _, .int _ => false
  | .str x, .str y => chars_le x.data y.data

/-- Sort key of a row for `ORDER BY c` (only applied to known columns). -/
def order_key (c : String) (r : Row) : Cell :=
  (col_value r c).getD (.str "")

/-- The row order induced by `ORDER BY c`. -/
def row_le (c : String) (r1 r2 : Row) : Prop :=
  cell_le (order_key c r1) (order_key c r2) = true

instance (c : String) : DecidableRel (row_le c) :=
  fun _ _ => inferInstanceAs (Decidable (_ = true))

/-- Models `DataBase.read_all` (lines 100-110):
`SELECT {columns} FROM {t} ORDER BY {order_by}`, then the age comprehension.
An unknown projected or ordering column makes SQLite raise before fetching. -/
def read_all (today : PyDate) (t : Table) (column_names : List String) (order_by : String) :
    Except RError (List (List Cell)) :=
  if column_names.all known_column && known_column order_by then
    with_ages today
      ((List.insertionSort (row_le order_by) t.rows).map
        (fun r => column_names.filterMap (col_value r)))
  else .error .queryError

/-- Rendering of a stored value for LIKE: SQLite casts an INTEGER operand of
LIKE to TEXT. -/
def cell_text : Cell → String
  | .int i => toString i
  | .str s => s

/-- Models `DataBase.read` (lines 112-124) for quote-free patterns:
`SELECT {columns} FROM {t} WHERE {column} Like '{data}'`, then the age
comprehension; no ORDER BY, so the stored order is kept.  The pattern is
spliced into the SQL text (see `read_query`); this semantic model is
faithful exactly when `data` contains no single-quote character, in which
case the SQL literal read back by the engine is `data` itself. -/
def read (today : PyDate) (t : Table) (column : String) (data : String)
    (column_names : List String) : Except RError (List (List Cell)) :=
  if column_names.all known_column && known_column column then
    with_ages today
      ((t.rows.filter (fun r => like data (cell_text (order_key column r)))).map
        (fun r => column_names.filterMap (col_value r)))
  else .error .queryError

/-- The single-quote character, written by code point. -/
def sq : String := String.mk [Char.ofNat 39]

/-- The exact SQL text built on line 120 of the source:
`f"SELECT {', '.join(column_names)} FROM {tablename} WHERE {column} Like '{data}'"`.
The filter value `data` is interpolated into the text, not bound. -/
def read_query (tablename column data : String) (column_names : List String) : String :=
  "SELECT " ++ join_sep ", " column_names ++ " FROM " ++ tablename ++
    " WHERE " ++ column ++ " Like " ++ sq ++ data ++ sq

/-- Modelled from the spec: the SQL text the claim describes, with the filter
value bound as a parameter (`?`) so that the text is independent of the
pattern.  This definition follows the words of the spec, not the source, and
exists only to be compared with `read_query`. -/
def read_query_bound_spec (tablename column : String) (column_names : List String) : String :=
  "SELECT " ++ join_sep ", " column_names ++ " FROM " ++ tablename ++
    " WHERE " ++ column ++ " Like ?"

/-! Helper lemmas about the embedded operations. -/

/-- Unfolding of `chars_le` on two nonempty lists. -/
theorem chars_le_cons_iff (a b : Char) (as bs : List Char) :
    chars_le (a :: as) (b :: bs) = true ↔ a < b ∨ (a = b ∧ chars_le as bs = true) := by
  simp only [chars_le]
  rcases lt_trichotomy a b with h | h | h
  · simp [h]
  · subst h
    simp [lt_irrefl]
  · have h1 : ¬ a < b := not_lt.mpr h.le
    have h2 : a ≠ b := ne_of_gt h
    simp [h, h1, h2]

/-- Totality of the BINARY text order. -/
theorem chars_le_total (a : List Char) : ∀ b, chars_le a b = true ∨ chars_le b a = true := by
  induction a with
  | nil => intro b; exact Or.inl rfl
  | cons x as ih =>
    intro b
    cases b with
    | nil => exact Or.inr rfl
    | cons y bs =>
      rcases lt_trichotomy x y with h | h | h
      · left
        rw [chars_le_cons_iff]
        exact Or.inl h
      · subst h
        rcases ih bs with h2 | h2
        · left
          rw [chars_le_cons_iff]
          exact Or.inr ⟨rfl, h2⟩
        · right
          rw [chars_le_cons_iff]
          exact Or.inr ⟨rfl, h2⟩
      · right
        rw [chars_le_cons_iff]
        exact Or.inl h

/-- Transitivity of the BINARY text order. -/
theorem chars_le_trans : ∀ a b c, chars_le a b = true → chars_le b c = true →
    chars_le a c = true := by
  intro a
  induction a with
  | nil => intro b c _ _; rfl
  | cons x as ih =>
    intro b c h1 h2
    cases b with
    | nil => simp [chars_le] at h1
    | cons y bs =>
      cases c with
      | nil => simp [chars_le] at h2
      | cons z cs =>
        rw [chars_le_cons_iff] at h1 h2 ⊢
        rcases h1 with h1 | ⟨rfl, h1⟩
        · rcases h2 with h2 | ⟨rfl, h2⟩
          · exact Or.inl (lt_trans h1 h2)
          · exact Or.inl h1
        · rcases h2 with h2 | ⟨rfl, h2⟩
          · exact Or.inl h2
          · exact Or.inr ⟨rfl, ih bs cs h1 h2⟩

/-- Totality of the SQLite value order. -/
theorem cell_le_total (a b : Cell) : cell_le a b = true ∨ cell_le b a = true := by
  cases a with
  | int x =>
    cases b with
    | int y =>
      rcases le_total x y with h | h
      · left
        simp [cell_le, h]
      · right
        simp [cell_le, h]
    | str s => exact Or.inl rfl
  | str s =>
    cases b with
    | int y => exact Or.inr rfl
    | str u => simpa [cell_le] using chars_le_total s.data u.data

/-- Transitivity of the SQLite value order. -/
theorem cell_le_trans (a b c : Cell) : cell_le a b = true → cell_le b c = true →
    cell_le a c = true := by
  cases a <;> cases b <;> cases c <;> simp [cell_le]
  · exact fun h1 h2 => le_trans h1 h2
  · exact fun h1 h2 => chars_le_trans _ _ _ h1 h2

instance rowLeTotal (c : String) : IsTotal Row (row_le c) :=
  ⟨fun a b => cell_le_total (order_key c a) (order_key c b)⟩

instance rowLeTrans (c : String) : IsTrans Row (row_le c) :=
  ⟨fun _ _ _ h1 h2 => cell_le_trans _ _ _ h1 h2⟩

/-- The age comprehension succeeds when every row's age computation does, and
appends exactly the computed age to each row. -/
theorem with_ages_ok (today : PyDate) :
    ∀ ps : List (List Cell), (∀ p ∈ ps, (how_old_a_you today p).isSome = true) →
      with_ages today ps =
        .ok (ps.map (fun p => p ++ [Cell.int ((how_old_a_you today p).getD 0)])) := by
  intro ps
  induction ps with
  | nil => intro _; rfl
  | cons p ps ih =>
    intro h
    obtain ⟨a, ha⟩ := Option.isSome_iff_exists.mp (h p (List.mem_cons_self p ps))
    rw [List.map_cons]
    simp only [with_ages, ha]
    rw [ih (fun q hq => h q (List.mem_cons_of_mem p hq))]
    simp [Except.map, ha]

/-- The age comprehension raises as soon as one row's age computation does. -/
theorem with_ages_error (today : PyDate) :
    ∀ ps : List (List Cell), (∃ p ∈ ps, how_old_a_you today p = none) →
      with_ages today ps = .error .valueError := by
  intro ps
  induction ps with
  | nil =>
    rintro ⟨p, hp, _⟩
    simp at hp
  | cons p ps ih =>
    rintro ⟨q, hq, hnone⟩
    cases h0 : how_old_a_you today p with
    | none => simp [with_ages, h0]
    | some a =>
      have hqps : q ∈ ps := by
        rcases List.mem_cons.mp hq with rfl | h
        · rw [h0] at hnone
          cases hnone
        · exact h
      simp [with_ages, h0, ih ⟨q, hqps, hnone⟩, Except.map]

/-- A row binds onto the three INSERT parameters exactly when it has arity 3. -/
theorem bind_row_eq_none_iff (r : List String) : bind_row r = none ↔ r.length ≠ 3 := by
  rcases r with _ | ⟨_, _ | ⟨_, _ | ⟨_, _ | ⟨_, tl⟩⟩⟩⟩ <;> simp [bind_row]

/-- Step of the executemany loop on a row that binds. -/
theorem run_insert_many_cons (t : Table) (r : List String) (rs : List (List String))
    (n b g : String) (h : bind_row r = some (n, b, g)) :
    run_insert_many t (r :: rs) = run_insert_many (insert_row t n b g) rs := by
  simp [run_insert_many, h]

/-- Step of the executemany loop on a row that fails to bind. -/
theorem run_insert_many_cons_err (t : Table) (r : List String) (rs : List (List String))
    (h : bind_row r = none) :
    run_insert_many t (r :: rs) = .error .writeError := by
  simp [run_insert_many, h]

/-- When every row has arity 3, the executemany loop stores one new row per
input row, after all previously stored rows. -/
theorem run_insert_many_ok : ∀ (rows : List (List String)) (t : Table),
    (∀ r ∈ rows, r.length = 3) →
    ∃ new : List Row, run_insert_many t rows = .ok ⟨t.nextId + rows.length, t.rows ++ new⟩ ∧
      new.length = rows.length := by
  intro rows
  induction rows with
  | nil =>
    intro t _
    exact ⟨[], by simp [run_insert_many], rfl⟩
  | cons r rs ih =>
    intro t h
    have h3 : r.length = 3 := h r (List.mem_cons_self r rs)
    cases hbr : bind_row r with
    | none => exact absurd h3 ((bind_row_eq_none_iff r).mp hbr)
    | some trip =>
      obtain ⟨n, b, g⟩ := trip
      obtain ⟨new, hrun, hlen⟩ := ih (insert_row t n b g)
        (fun q hq => h q (List.mem_cons_of_mem _ hq))
      refine ⟨⟨t.nextId, n, b, g⟩ :: new, ?_, by simp [hlen]⟩
      rw [run_insert_many_cons t r rs n b g hbr, hrun]
      simp [insert_row, List.append_assoc]
      omega

/-- When some row has the wrong arity, the executemany loop raises. -/
theorem run_insert_many_error : ∀ (rows : List (List String)) (t : Table),
    (∃ r ∈ rows, r.length ≠ 3) → run_insert_many t rows = .error .writeError := by
  intro rows
  induction rows with
  | nil =>
    rintro t ⟨r, hr, _⟩
    simp at hr
  | cons r rs ih =>
    rintro t ⟨q, hq, hql⟩
    cases hbr : bind_row r with
    | none => exact run_insert_many_cons_err t r rs hbr
    | some trip =>
      obtain ⟨n, b, g⟩ := trip
      rw [run_insert_many_cons t r rs n b g hbr]
      apply ih
      rcases List.mem_cons.mp hq with rfl | hmem
      · exfalso
        apply hql
        by_contra hne
        rw [(bind_row_eq_none_iff q).mpr hne] at hbr
        cases hbr
      · exact ⟨q, hmem, hql⟩

/-- Whatever the executemany loop returns, the stored rows only grow. -/
theorem run_insert_many_extends : ∀ (rows : List (List String)) (t t2 : Table),
    run_insert_many t rows = .ok t2 → ∃ l, t2.rows = t.rows ++ l := by
  intro rows
  induction rows with
  | nil =>
    intro t t2 h
    simp [run_insert_many] at h
    exact ⟨[], by rw [← h]; simp⟩
  | cons r rs ih =>
    intro t t2 h
    cases hbr : bind_row r with
    | none =>
      rw [run_insert_many_cons_err t r rs hbr] at h
      cases h
    | some trip =>
      obtain ⟨n, b, g⟩ := trip
      rw [run_insert_many_cons t r rs n b g hbr] at h
      obtain ⟨l, hl⟩ := ih (insert_row t n b g) t2 h
      exact ⟨⟨t.nextId, n, b, g⟩ :: l, by rw [hl]; simp [insert_row]⟩

/-- The empty pattern tail `%` of a LIKE pattern matches any remaining text,
given enough fuel. -/
theorem likeFuel_nil_nil : ∀ k, 1 ≤ k → likeFuel k [] [] = true := by
  intro k hk
  cases k with
  | zero => omega
  | succ k => rfl

/-- `%` alone matches every string, given enough fuel. -/
theorem likeFuel_percent : ∀ (k : Nat) (cs : List Char), cs.length + 2 ≤ k →
    likeFuel k ['%'] cs = true := by
  intro k
  induction k with
  | zero =>
    intro cs h
    omega
  | succ k ih =>
    intro cs h
    cases cs with
    | nil =>
      have h1 : likeFuel k [] [] = true := likeFuel_nil_nil k (by simp at h; omega)
      simp [likeFuel, h1]
    | cons c cs2 =>
      have h2 : likeFuel k ['%'] cs2 = true := ih cs2 (by simp at h ⊢; omega)
      simp [likeFuel, h2]

/-- One step of the matcher on the concrete pattern `F%`. -/
theorem likeFuel_F_cons (k : Nat) (c : Char) (cs : List Char) :
    likeFuel (k + 1) ['F', '%'] (c :: cs) =
      ((foldAscii 'F' == foldAscii c) && likeFuel k ['%'] cs) := rfl

/-- Evaluation of `Char.ofNat` on the lower-case ASCII range. -/
theorem char_toNat_ofNat_lower (n : Nat) (h1 : 97 ≤ n) (h2 : n ≤ 122) :
    (Char.ofNat n).toNat = n := by
  have hv : n.isValidChar := Or.inl (by omega)
  simp [Char.ofNat, hv]
  rfl

/-- A character folds onto the fold of `F` exactly when it is `F` or `f`:
this is the ASCII case-insensitivity of SQLite LIKE at the letter `F`. -/
theorem foldAscii_eq_f_iff (c : Char) :
    (foldAscii 'F' == foldAscii c) = true ↔ c = 'F' ∨ c = 'f' := by
  have hF : foldAscii 'F' = 'f' := by decide
  rw [hF]
  constructor
  · intro h
    have h2 : 'f' = foldAscii c := beq_iff_eq.mp h
    unfold foldAscii at h2
    by_cases hr : ('A' ≤ c && c ≤ 'Z') = true
    · rw [if_pos hr] at h2
      have hbounds : 65 ≤ c.toNat ∧ c.toNat ≤ 90 := by
        simp only [Bool.and_eq_true, decide_eq_true_eq] at hr
        exact ⟨hr.1, hr.2⟩
      have h3 : (Char.ofNat (c.toNat + 32)).toNat = c.toNat + 32 :=
        char_toNat_ofNat_lower _ (by omega) (by omega)
      have h4 : (102 : Nat) = c.toNat + 32 := by
        have := congrArg Char.toNat h2
        rwa [h3] at this
      have h5 : c.toNat = 70 := by omega
      left
      have h6 : c = Char.ofNat c.toNat := (Char.ofNat_toNat c).symm
      rw [h6, h5]
    · rw [if_neg hr] at h2
      exact Or.inr h2.symm
  · rintro (rfl | rfl) <;> decide

/-- The LIKE pattern `F%` matches exactly the strings whose first character is
`F` or `f` (SQLite LIKE folds ASCII case). -/
theorem like_F_iff (s : String) :
    like "F%" s = true ↔ ∃ c cs, s.data = c :: cs ∧ (c = 'F' ∨ c = 'f') := by
  unfold like
  have hd : ("F%" : String).data = ['F', '%'] := rfl
  rw [hd]
  cases hs : s.data with
  | nil =>
    have h0 : likeFuel (['F', '%'].length + ([] : List Char).length + 1) ['F', '%'] [] = false :=
      rfl
    rw [h0]
    simp
  | cons c cs =>
    have hlen : ['F', '%'].length + (c :: cs).length + 1 = (2 + (cs.length + 1)) + 1 := by
      simp
    rw [hlen, likeFuel_F_cons]
    have hp : likeFuel (2 + (cs.length + 1)) ['%'] cs = true :=
      likeFuel_percent _ _ (by omega)
    rw [hp]
    simp only [Bool.and_true]
    rw [foldAscii_eq_f_iff]
    constructor
    · intro h
      exact ⟨c, cs, rfl, h⟩
    · rintro ⟨c2, cs2, heq, h⟩
      injection heq with h1 h2
      subst h1
      exact h

/-! The claims. -/

/-- C1 is false on the code: the `users` schema has no uniqueness constraint
on (name, date, gender), so `INSERT OR IGNORE` finds no conflict and the
identical 3-tuple inserted twice via `insert_many` is stored twice (not
once, as the claim states), with no error raised. -/
theorem c1_counterexample :
    (insert_many emptyTable
      [["Alice", "1990-05-15", "F"], ["Alice", "1990-05-15", "F"]]).1.rows.length = 2 ∧
    (insert_many emptyTable
      [["Alice", "1990-05-15", "F"], ["Alice", "1990-05-15", "F"]]).1.rows.length ≠ 1 ∧
    (insert_many emptyTable
      [["Alice", "1990-05-15", "F"], ["Alice", "1990-05-15", "F"]]).2 = none ∧
    create_table ⟨[], []⟩ "users" users_columns = ⟨[("users", emptyTable)], []⟩ :=
  ⟨rfl, by decide, rfl, rfl⟩

/-- C1 (amended): inserting the identical (name, birthdate, gender) 3-tuple
twice via `insert_many` into a table of the `users` schema raises no error
and stores exactly two rows, one per insert, with distinct auto-assigned
ids; the ignore-conflict clause has no conflict to act on because the
schema has no uniqueness constraint on those columns. -/
theorem c1_amended_duplicates_stored_twice (t : Table) (n b g : String) :
    insert_many t [[n, b, g], [n, b, g]] =
      (⟨t.nextId + 2, t.rows ++ [⟨t.nextId, n, b, g⟩, ⟨t.nextId + 1, n, b, g⟩]⟩, none) := by
  simp [insert_many, run_insert_many, bind_row, insert_row, List.append_assoc]

/-- C2 is false on the code: SQLite LIKE is ASCII case-insensitive, so
`find_name_f` also returns rows whose name begins with lower-case `f`; on
the stored row ("frank", d, "M") the code returns the row while the claim's
predicate (name begins with the character `F`) selects nothing. -/
theorem c2_counterexample :
    find_name_f ⟨2, [⟨1, "frank", "2000-01-01", "M"⟩]⟩ =
      [⟨1, "frank", "2000-01-01", "M"⟩] ∧
    (⟨2, [⟨1, "frank", "2000-01-01", "M"⟩]⟩ : Table).rows.filter
      (fun r => decide (r.name.data.head? = some 'F') && (r.gender == "M")) = [] :=
  ⟨rfl, rfl⟩

/-- C2 (amended): `find_name_f` returns, with all columns, exactly the rows
whose name begins with `F` or `f` (LIKE folds ASCII case) and whose gender
equals `M` exactly (the `=` comparison does not fold case); in particular,
for stored rows ("Frank", d1, "M"), ("Frank", d2, "F"), ("Bob", d3, "M") it
returns exactly ("Frank", d1, "M"). -/
theorem c2_amended_find_name_f :
    (∀ (t : Table) (r : Row),
      r ∈ find_name_f t ↔
        r ∈ t.rows ∧ (∃ c cs, r.name.data = c :: cs ∧ (c = 'F' ∨ c = 'f')) ∧
          r.gender = "M") ∧
    (∀ d1 d2 d3 : String,
      find_name_f ⟨4, [⟨1, "Frank", d1, "M"⟩, ⟨2, "Frank", d2, "F"⟩, ⟨3, "Bob", d3, "M"⟩]⟩ =
        [⟨1, "Frank", d1, "M"⟩]) := by
  constructor
  · intro t r
    unfold find_name_f
    rw [List.mem_filter]
    simp only [Bool.and_eq_true, beq_iff_eq, like_F_iff]
  · intro d1 d2 d3
    simp [find_name_f, List.filter_cons, List.filter_nil,
      show like "F%" "Frank" = true from rfl,
      show like "F%" "Bob" = false from rfl,
      show (("M" : String) == "M") = true from rfl,
      show (("F" : String) == "M") = false from rfl]

/-- C3: for every stored birthdate string that parses as a calendar date
and every fixed current date, the age computed at read time is
currentYear - birthYear, decremented by one exactly when (currentMonth,
currentDay) is lexicographically earlier than (birthMonth, birthDay). -/
theorem c3_age_computation (s : String) (b today : PyDate) (c0 : Cell) (rest : List Cell)
    (h : strptimeYMD s = some b) :
    how_old_a_you today (c0 :: Cell.str s :: rest) =
      some ((today.year : Int) - (b.year : Int) -
        (if today.month < b.month ∨ (today.month = b.month ∧ today.day < b.day)
         then 1 else 0)) := by
  simp [how_old_a_you, h, ageOn]

/-- C3 witness: birthdate "1990-05-15" gives age 33 on 2024-05-14 (birthday
not yet occurred) and 34 on 2024-05-16. -/
theorem c3_age_computation_witness :
    strptimeYMD "1990-05-15" = some ⟨1990, 5, 15⟩ ∧
    how_old_a_you ⟨2024, 5, 14⟩ [Cell.str "Alice", Cell.str "1990-05-15", Cell.str "F"] =
      some 33 ∧
    how_old_a_you ⟨2024, 5, 16⟩ [Cell.str "Alice", Cell.str "1990-05-15", Cell.str "F"] =
      some 34 := by
  refine ⟨by decide, ?_, ?_⟩
  · exact (c3_age_computation "1990-05-15" ⟨1990, 5, 15⟩ ⟨2024, 5, 14⟩ (Cell.str "Alice")
      [Cell.str "F"] (by decide)).trans (by decide)
  · exact (c3_age_computation "1990-05-15" ⟨1990, 5, 15⟩ ⟨2024, 5, 16⟩ (Cell.str "Alice")
      [Cell.str "F"] (by decide)).trans (by decide)

/-- C6: construction fails with the invalid-path error exactly when the
directory does not exist; given an existing directory it fails with the
invalid-filename error exactly when the file name ends neither in ".db"
nor in ".sqlite3"; and with an existing directory and an accepted
extension it succeeds on that (path, filename) pair. -/
theorem c6_construction_validation (pe : String → Bool) (path filename : String) :
    (data_base_init pe path filename = .error .invalidPath ↔ pe path = false) ∧
    (pe path = true →
      (data_base_init pe path filename = .error .invalidFilename ↔
        (ends_with filename ".db" || ends_with filename ".sqlite3") = false)) ∧
    (pe path = true → (ends_with filename ".db" || ends_with filename ".sqlite3") = true →
      data_base_init pe path filename = .ok (path, filename)) := by
  unfold data_base_init is_path_valid is_filename_valid
  cases hpe : pe path <;>
    cases hext : (ends_with filename ".db" || ends_with filename ".sqlite3") <;> simp

/-- C6 witness: a missing directory raises the path error, a bad extension
the filename error, and a good pair succeeds. -/
theorem c6_construction_validation_witness :
    data_base_init (fun _ => false) "p" "my_BD.db" = .error .invalidPath ∧
    data_base_init (fun _ => true) "p" "my_BD.txt" = .error .invalidFilename ∧
    data_base_init (fun _ => true) "p" "my_BD.db" = .ok ("p", "my_BD.db") := by
  refine ⟨?_, ?_, ?_⟩
  · exact (c6_construction_validation (fun _ => false) "p" "my_BD.db").1.mpr rfl
  · exact ((c6_construction_validation (fun _ => true) "p" "my_BD.txt").2.1 rfl).mpr (by decide)
  · exact (c6_construction_validation (fun _ => true) "p" "my_BD.db").2.2 rfl (by decide)

/-- C7: the four DDL operations are idempotent: applying `create_table`,
`delete_table` or `delete_index` twice with the same arguments equals
applying it once (and these raise no error); a second `create_index` after
a successful one returns the same state with no error. -/
theorem c7_ddl_idempotent (s : DBState) (n : String) (cols : List (String × DBType))
    (tbl idx : String) :
    create_table (create_table s n cols) n cols = create_table s n cols ∧
    delete_table (delete_table s n) n = delete_table s n ∧
    (∀ s2, create_index s tbl idx = .ok s2 → create_index s2 tbl idx = .ok s2) ∧
    delete_index (delete_index s idx) idx = delete_index s idx := by
  refine ⟨?_, ?_, ?_, ?_⟩
  · by_cases h : table_exists s n = true
    · simp [create_table, h]
    · unfold create_table
      rw [if_neg h]
      have h2 : table_exists { s with tables := s.tables ++ [(n, emptyTable)] } n = true := by
        simp [table_exists, List.any_append]
      rw [if_pos h2]
  · simp [delete_table, List.filter_filter, Bool.and_self]
  · intro s2 h
    unfold create_index at h ⊢
    by_cases h1 : index_exists s idx = true
    · rw [if_pos h1] at h
      injection h with h3
      subst h3
      rw [if_pos h1]
    · rw [if_neg h1] at h
      by_cases h2 : table_exists s tbl = true
      · rw [if_pos h2] at h
        injection h with h3
        subst h3
        have h4 : index_exists { s with indexes := s.indexes ++ [(idx, tbl)] } idx = true := by
          simp [index_exists, List.any_append]
        rw [if_pos h4]
      · rw [if_neg h2] at h
        cases h
  · simp [delete_index, List.filter_filter, Bool.and_self]

/-- C7 witness: creating the partial index on `users` twice returns the same
state both times with no error. -/
theorem c7_ddl_idempotent_witness :
    create_index ⟨[("users", emptyTable)], []⟩ "users" "my_index" =
      .ok ⟨[("users", emptyTable)], [("my_index", "users")]⟩ ∧
    create_index ⟨[("users", emptyTable)], [("my_index", "users")]⟩ "users" "my_index" =
      .ok ⟨[("users", emptyTable)], [("my_index", "users")]⟩ := by
  have h1 : create_index ⟨[("users", emptyTable)], []⟩ "users" "my_index" =
      .ok ⟨[("users", emptyTable)], [("my_index", "users")]⟩ := rfl
  exact ⟨h1, (c7_ddl_idempotent ⟨[("users", emptyTable)], []⟩ "users" users_columns
    "users" "my_index").2.2.1 _ h1⟩

/-- C8: `insert_many` is atomic on the committed state: when every row of the
batch binds (arity 3; no row of the `users` schema can conflict), all rows
are committed by the single commit; when any row fails, the call fails as a
unit and the committed table state is exactly the prior one. -/
theorem c8_insert_many_atomicity (t : Table) (rows : List (List String)) :
    ((∀ r ∈ rows, r.length = 3) →
      ∃ new : List Row,
        insert_many t rows = (⟨t.nextId + rows.length, t.rows ++ new⟩, none) ∧
        new.length = rows.length) ∧
    ((∃ r ∈ rows, r.length ≠ 3) →
      insert_many t rows = (t, some .writeError)) := by
  constructor
  · intro h
    obtain ⟨new, hrun, hlen⟩ := run_insert_many_ok rows t h
    exact ⟨new, by simp [insert_many, hrun], hlen⟩
  · intro h
    simp [insert_many, run_insert_many_error rows t h]

/-- C8 witness: a good batch commits in full; a batch with a malformed row
fails as a unit, leaving the committed state unchanged. -/
theorem c8_insert_many_atomicity_witness :
    (∃ new : List Row,
      insert_many emptyTable [["Alice", "1990-05-15", "F"]] = (⟨2, new⟩, none) ∧
      new.length = 1) ∧
    insert_many emptyTable [["Alice"]] = (emptyTable, some .writeError) := by
  constructor
  · exact (c8_insert_many_atomicity emptyTable [["Alice", "1990-05-15", "F"]]).1 (by decide)
  · exact (c8_insert_many_atomicity emptyTable [["Alice"]]).2
      ⟨["Alice"], by decide, by decide⟩

/-- C10: the insert operations are append-only: after `insert` or
`insert_many`, whatever the outcome, the committed rows are the prior rows
followed by zero or more new rows, so every previously stored row remains
present and unchanged, auto-assigned id included. -/
theorem c10_insert_append_only (t : Table) (row : List String) (rows : List (List String)) :
    (∃ l, (insert t row).1.rows = t.rows ++ l) ∧
    (∃ l, (insert_many t rows).1.rows = t.rows ++ l) := by
  constructor
  · cases hbr : bind_row row with
    | none => exact ⟨[], by simp [insert, hbr]⟩
    | some trip =>
      obtain ⟨n, b, g⟩ := trip
      exact ⟨[⟨t.nextId, n, b, g⟩], by simp [insert, hbr, insert_row]⟩
  · cases hrun : run_insert_many t rows with
    | error e => exact ⟨[], by simp [insert_many, hrun]⟩
    | ok t2 =>
      obtain ⟨l, hl⟩ := run_insert_many_extends rows t t2 hrun
      exact ⟨l, by simp [insert_many, hrun, hl]⟩

/-- C4: on a valid projection and ordering column, and whenever the age
computation succeeds on every row, `read_all` returns exactly the stored
rows in some order `rs` sorted ascending by the `ORDER BY` column, each
projected to the requested columns and augmented with the single trailing
computed age. -/
theorem c4_read_all_sorted_projection (today : PyDate) (t : Table)
    (column_names : List String) (order_by : String)
    (hcols : column_names.all known_column = true) (hob : known_column order_by = true)
    (hage : ∀ r ∈ t.rows,
      (how_old_a_you today (column_names.filterMap (col_value r))).isSome = true) :
    ∃ rs : List Row, rs.Perm t.rows ∧ List.Sorted (row_le order_by) rs ∧
      read_all today t column_names order_by =
        .ok (rs.map (fun r => column_names.filterMap (col_value r) ++
          [Cell.int ((how_old_a_you today
            (column_names.filterMap (col_value r))).getD 0)])) := by
  refine ⟨List.insertionSort (row_le order_by) t.rows,
    List.perm_insertionSort _ _, List.sorted_insertionSort _ _, ?_⟩
  unfold read_all
  rw [if_pos (by rw [hcols, hob]; rfl)]
  rw [with_ages_ok]
  · rw [List.map_map]
    rfl
  · intro p hp
    obtain ⟨r, hr, rfl⟩ := List.mem_map.mp hp
    exact hage r ((List.perm_insertionSort (row_le order_by) t.rows).subset hr)

/-- C4 witness: two rows inserted out of name order come back sorted by name,
projected to (name, date, gender) and each with its trailing age. -/
theorem c4_read_all_sorted_projection_witness :
    (∀ r ∈ ([⟨1, "Bob", "2000-01-02", "M"⟩, ⟨2, "Alice", "1990-05-15", "F"⟩] : List Row),
      (how_old_a_you ⟨2024, 5, 14⟩
        ((["name", "date", "gender"] : List String).filterMap (col_value r))).isSome = true) ∧
    ∃ rs : List Row,
      rs.Perm [⟨1, "Bob", "2000-01-02", "M"⟩, ⟨2, "Alice", "1990-05-15", "F"⟩] ∧
      List.Sorted (row_le "name") rs ∧
      read_all ⟨2024, 5, 14⟩
          ⟨3, [⟨1, "Bob", "2000-01-02", "M"⟩, ⟨2, "Alice", "1990-05-15", "F"⟩]⟩
          ["name", "date", "gender"] "name" =
        .ok (rs.map (fun r => (["name", "date", "gender"] : List String).filterMap
            (col_value r) ++
          [Cell.int ((how_old_a_you ⟨2024, 5, 14⟩
            ((["name", "date", "gender"] : List String).filterMap (col_value r))).getD 0)])) :=
  ⟨by decide, c4_read_all_sorted_projection ⟨2024, 5, 14⟩
    ⟨3, [⟨1, "Bob", "2000-01-02", "M"⟩, ⟨2, "Alice", "1990-05-15", "F"⟩]⟩
    ["name", "date", "gender"] "name" (by decide) (by decide) (by decide)⟩

/-- C5 is false on the code: line 120 splices the filter value into the SQL
text, so the text depends on the pattern (with a bound parameter it would
be constant, as `read_query_bound_spec` is), and a single quote inside the
pattern terminates the SQL string literal and injects SQL syntax. -/
theorem c5_counterexample :
    read_query "users" "name" "a" ["name"] ≠ read_query "users" "name" "b" ["name"] ∧
    read_query "users" "name" ("x" ++ sq ++ " OR 1=1 --") ["name"] =
      "SELECT name FROM users WHERE name Like " ++ sq ++ "x" ++ sq ++ " OR 1=1 --" ++ sq ∧
    read_query "users" "name" "a" ["name"] ≠ read_query_bound_spec "users" "name" ["name"] := by
  refine ⟨by decide, by decide, by decide⟩

/-- C5 (amended): the filter value is interpolated into the SQL text inside
single quotes, not bound; for every pattern containing no single-quote
character (so that the SQL literal the engine reads back is the pattern
itself), `read` returns exactly the rows whose filter column matches the
pattern under SQLite LIKE semantics, projected and augmented with the
computed age, whenever that age computation succeeds on the matching rows. -/
theorem c5_amended_read_like (today : PyDate) (t : Table) (column data : String)
    (column_names : List String)
    (_hq : data.data.all (fun c => !(c == Char.ofNat 39)) = true)
    (hcols : column_names.all known_column = true) (hcol : known_column column = true)
    (hage : ∀ r ∈ t.rows, like data (cell_text (order_key column r)) = true →
      (how_old_a_you today (column_names.filterMap (col_value r))).isSome = true) :
    MyApp.read today t column data column_names =
      .ok ((t.rows.filter (fun r => like data (cell_text (order_key column r)))).map
        (fun r => column_names.filterMap (col_value r) ++
          [Cell.int ((how_old_a_you today
            (column_names.filterMap (col_value r))).getD 0)])) := by
  unfold read
  rw [if_pos (by rw [hcols, hcol]; rfl)]
  rw [with_ages_ok]
  · rw [List.map_map]
    rfl
  · intro p hp
    obtain ⟨r, hr, rfl⟩ := List.mem_map.mp hp
    have hmem := List.mem_filter.mp hr
    exact hage r hmem.1 hmem.2

/-- C5 witness: the quote-free pattern `F%` on column `name` returns exactly
the LIKE-matching rows with their ages appended. -/
theorem c5_amended_read_like_witness :
    MyApp.read ⟨2024, 5, 14⟩
        ⟨3, [⟨1, "Frank", "1990-05-15", "M"⟩, ⟨2, "Bob", "1995-01-01", "M"⟩]⟩
        "name" "F%" ["name", "date", "gender"] =
      .ok ((([⟨1, "Frank", "1990-05-15", "M"⟩, ⟨2, "Bob", "1995-01-01", "M"⟩] : List Row).filter
          (fun r => like "F%" (cell_text (order_key "name" r)))).map
        (fun r => (["name", "date", "gender"] : List String).filterMap (col_value r) ++
          [Cell.int ((how_old_a_you ⟨2024, 5, 14⟩
            ((["name", "date", "gender"] : List String).filterMap (col_value r))).getD 0)])) :=
  c5_amended_read_like ⟨2024, 5, 14⟩
    ⟨3, [⟨1, "Frank", "1990-05-15", "M"⟩, ⟨2, "Bob", "1995-01-01", "M"⟩]⟩
    "name" "F%" ["name", "date", "gender"] (by decide) (by decide) (by decide) (by decide)

/-- C9 is false as stated: the claim says every call whose projection has
fewer than two columns raises, but a read that processes no row returns an
empty result with no error — `read_all` on the empty table, and `read`
(ReadFiltered) on a nonempty table whose rows all fail the LIKE filter,
since the age comprehension then runs zero times. -/
theorem c9_counterexample :
    read_all ⟨2024, 1, 1⟩ emptyTable ["name"] "name" = .ok [] ∧
    MyApp.read ⟨2024, 1, 1⟩ ⟨2, [⟨1, "Alice", "1990-05-15", "F"⟩]⟩ "name" "Z%" ["name"] =
      .ok [] ∧
    (⟨2, [⟨1, "Alice", "1990-05-15", "F"⟩]⟩ : Table).rows ≠ [] ∧
    (["name"] : List String).length < 2 :=
  ⟨rfl, rfl, by decide, by decide⟩

/-- C9 (amended): both reads compute the appended age by parsing the element
at index 1 of the projected row (the second requested column), never a
column selected by name; consequently a read raises instead of returning a
result whenever some row it processes — every stored row for `read_all`,
the LIKE-matching rows for `read` — has no parseable date string at index 1
of its projection, and in particular a projection of fewer than two columns
raises as soon as at least one row is processed. -/
theorem c9_amended_age_index1 (today : PyDate) (t : Table)
    (column_names : List String) (order_by column data : String)
    (hcols : column_names.all known_column = true) (hob : known_column order_by = true)
    (hcol : known_column column = true) :
    (∀ p q : List Cell, p[1]? = q[1]? → how_old_a_you today p = how_old_a_you today q) ∧
    ((∃ r ∈ t.rows, how_old_a_you today (column_names.filterMap (col_value r)) = none) →
      read_all today t column_names order_by = .error .valueError) ∧
    (column_names.length < 2 → t.rows ≠ [] →
      read_all today t column_names order_by = .error .valueError) ∧
    ((∃ r ∈ t.rows, like data (cell_text (order_key column r)) = true ∧
        how_old_a_you today (column_names.filterMap (col_value r)) = none) →
      MyApp.read today t column data column_names = .error .valueError) ∧
    (column_names.length < 2 →
      (∃ r ∈ t.rows, like data (cell_text (order_key column r)) = true) →
      MyApp.read today t column data column_names = .error .valueError) := by
  refine ⟨?_, ?_, ?_, ?_, ?_⟩
  · intro p q h
    unfold how_old_a_you
    rw [h]
  · rintro ⟨r, hr, hnone⟩
    unfold read_all
    rw [if_pos (by rw [hcols, hob]; rfl)]
    apply with_ages_error
    exact ⟨column_names.filterMap (col_value r),
      List.mem_map.mpr ⟨r, (List.perm_insertionSort _ _).mem_iff.mpr hr, rfl⟩, hnone⟩
  · intro hlen hne
    cases ht : t.rows with
    | nil => exact absurd ht hne
    | cons r rest =>
      unfold read_all
      rw [if_pos (by rw [hcols, hob]; rfl)]
      apply with_ages_error
      refine ⟨column_names.filterMap (col_value r),
        List.mem_map.mpr ⟨r, (List.perm_insertionSort _ _).mem_iff.mpr
          (by rw [ht]; exact List.mem_cons_self r rest), rfl⟩, ?_⟩
      unfold how_old_a_you
      have hl : (column_names.filterMap (col_value r)).length < 2 :=
        lt_of_le_of_lt (List.length_filterMap_le _ _) hlen
      have hnone2 : (column_names.filterMap (col_value r))[1]? = none :=
        List.getElem?_eq_none (by omega)
      rw [hnone2]
  · rintro ⟨r, hr, hlike, hnone⟩
    unfold read
    rw [if_pos (by rw [hcols, hcol]; rfl)]
    apply with_ages_error
    exact ⟨column_names.filterMap (col_value r),
      List.mem_map.mpr ⟨r, List.mem_filter.mpr ⟨hr, hlike⟩, rfl⟩, hnone⟩
  · rintro hlen ⟨r, hr, hlike⟩
    unfold read
    rw [if_pos (by rw [hcols, hcol]; rfl)]
    apply with_ages_error
    refine ⟨column_names.filterMap (col_value r),
      List.mem_map.mpr ⟨r, List.mem_filter.mpr ⟨hr, hlike⟩, rfl⟩, ?_⟩
    unfold how_old_a_you
    have hl : (column_names.filterMap (col_value r)).length < 2 :=
      lt_of_le_of_lt (List.length_filterMap_le _ _) hlen
    have hnone2 : (column_names.filterMap (col_value r))[1]? = none :=
      List.getElem?_eq_none (by omega)
    rw [hnone2]

/-- C9 witness: with one stored row, projecting (name, gender, date) puts a
non-date at index 1 and `read_all` raises, as does a (name)-only
projection; `read` raises the same way on both projections when its LIKE
pattern matches the stored row. -/
theorem c9_amended_age_index1_witness :
    read_all ⟨2024, 1, 1⟩ ⟨2, [⟨1, "Alice", "1990-05-15", "F"⟩]⟩
      ["name", "gender", "date"] "name" = .error .valueError ∧
    read_all ⟨2024, 1, 1⟩ ⟨2, [⟨1, "Alice", "1990-05-15", "F"⟩]⟩
      ["name"] "name" = .error .valueError ∧
    MyApp.read ⟨2024, 1, 1⟩ ⟨2, [⟨1, "Alice", "1990-05-15", "F"⟩]⟩
      "name" "A%" ["name", "gender", "date"] = .error .valueError ∧
    MyApp.read ⟨2024, 1, 1⟩ ⟨2, [⟨1, "Alice", "1990-05-15", "F"⟩]⟩
      "name" "A%" ["name"] = .error .valueError := by
  refine ⟨?_, ?_, ?_, ?_⟩
  · exact (c9_amended_age_index1 ⟨2024, 1, 1⟩ ⟨2, [⟨1, "Alice", "1990-05-15", "F"⟩]⟩
      ["name", "gender", "date"] "name" "name" "A%" (by decide) (by decide) (by decide)).2.1
      ⟨⟨1, "Alice", "1990-05-15", "F"⟩, by decide, by decide⟩
  · exact (c9_amended_age_index1 ⟨2024, 1, 1⟩ ⟨2, [⟨1, "Alice", "1990-05-15", "F"⟩]⟩
      ["name"] "name" "name" "A%" (by decide) (by decide) (by decide)).2.2.1
      (by decide) (by decide)
  · exact (c9_amended_age_index1 ⟨2024, 1, 1⟩ ⟨2, [⟨1, "Alice", "1990-05-15", "F"⟩]⟩
      ["name", "gender", "date"] "name" "name" "A%" (by decide) (by decide)
      (by decide)).2.2.2.1
      ⟨⟨1, "Alice", "1990-05-15", "F"⟩, by decide, by decide, by decide⟩
  · exact (c9_amended_age_index1 ⟨2024, 1, 1⟩ ⟨2, [⟨1, "Alice", "1990-05-15", "F"⟩]⟩
      ["name"] "name" "name" "A%" (by decide) (by decide) (by decide)).2.2.2.2
      (by decide) ⟨⟨1, "Alice", "1990-05-15", "F"⟩, by decide, by decide⟩

end MyApp
